import Mathlib

/-!
Verification of the SHX font parser (mlightcad/shx-parser).

The development shallowly embeds the TypeScript sources:
* `point.ts` / `arc.ts` : 2D points and circular arcs (bulge and octant form);
* `shapeParser.ts`      : the glyph bytecode interpreter, shape cache and scaler;
* `contentParser.ts`    : the three per-sub-type content decoders;
* `fileReader.ts`       : the bounds-checked binary cursor.

IEEE-754 double arithmetic is idealised as a linear ordered field `α`; the
transcendental functions of the JavaScript `Math` object are collected in a
record `RealFns α` so that the embedding stays executable: theorems about arc
geometry instantiate it with the genuine real functions (`realFns`), while
concrete interpreter runs that use no arc opcode are evaluated over `ℚ` with a
stand-in table that such runs never consult.
-/

deriving instance DecidableEq for Except

namespace Shx

/-- The table of transcendental functions used by the sources through the
JavaScript `Math` object (`Math.cos`, `Math.sin`, `Math.atan`, `Math.atan2`,
`Math.sqrt`, `Math.PI`). -/
structure RealFns (α : Type) where
  cos : α → α
  sin : α → α
  arctan : α → α
  atan2 : α → α → α
  sqrt : α → α
  pi : α

/-- The genuine interpretation of the `Math` functions over the reals;
`Math.atan2 y x` is the argument of the complex number `x + y·i`. -/
noncomputable def realFns : RealFns ℝ where
  cos := Real.cos
  sin := Real.sin
  arctan := Real.arctan
  atan2 := fun y x => Complex.arg ⟨x, y⟩
  sqrt := Real.sqrt
  pi := Real.pi

/-- Stand-in table over `ℚ`, used only to run the interpreter on glyph
programs that contain no arc opcode; such runs never consult the table. -/
def ratFns : RealFns ℚ where
  cos := fun _ => 0
  sin := fun _ => 0
  arctan := fun _ => 0
  atan2 := fun _ _ => 0
  sqrt := fun _ => 0
  pi := 0

variable {α : Type} [LinearOrderedField α]

/-- A 2D point (`point.ts`).  The JavaScript class is mutable; the embedding
is pure, and `clone()` calls therefore vanish. -/
structure Pt (α : Type) where
  x : α
  y : α
deriving DecidableEq, Repr

/-- Componentwise addition (`Point.add`). -/
def Pt.add (p q : Pt α) : Pt α := ⟨p.x + q.x, p.y + q.y⟩

/-- Componentwise subtraction (`Point.subtract`). -/
def Pt.sub (p q : Pt α) : Pt α := ⟨p.x - q.x, p.y - q.y⟩

/-- Scalar multiplication (`Point.multiply`). -/
def Pt.mul (p : Pt α) (s : α) : Pt α := ⟨p.x * s, p.y * s⟩

/-- Scalar division (`Point.divide`); the source leaves the point unchanged
when the scalar is zero. -/
def Pt.div (p : Pt α) (s : α) : Pt α := if s ≠ 0 then ⟨p.x / s, p.y / s⟩ else p

/-- Euclidean norm (`Point.length`). -/
def Pt.len (p : Pt α) (F : RealFns α) : α := F.sqrt (p.x * p.x + p.y * p.y)

/-- In-place normalisation (`Point.normalize`); the source divides only when
the length is non-zero. -/
def Pt.normalize (p : Pt α) (F : RealFns α) : Pt α :=
  if p.len F ≠ 0 then ⟨p.x / p.len F, p.y / p.len F⟩ else p

/-- An arc (`arc.ts`): either bulge-defined (`start`/`endPt`/`bulge` set) or
octant-defined (`endPt`, `bulge` left empty).  Field `endPt` renders the
source's `end`, a reserved word in Lean. -/
structure Arc (α : Type) where
  start : Pt α
  endPt : Option (Pt α)
  bulge : Option α
  center : Pt α
  radius : α
  startAngle : α
  endAngle : α
  isClockwise : Bool

/-- The clamp `Math.max(-1, Math.min(1, bulge))` applied by `Arc.fromBulge`. -/
def clampBulge (b : α) : α := max (-1) (min 1 b)

/-- Bulge-defined arc construction: `Arc.fromBulge` composed with the private
constructor's bulge branch (`arc.ts`). -/
def Arc.fromBulge (F : RealFns α) (s e : Pt α) (bulge : α) : Arc α :=
  let b := clampBulge bulge
  let isCW : Bool := decide (b < 0)
  let distance := e.sub s
  let D := distance.len F
  let H := |b| * D / 2
  if H = 0 then
    { start := s, endPt := some e, bulge := some b, center := s, radius := 0
      startAngle := F.atan2 distance.y distance.x
      endAngle := F.atan2 distance.y distance.x, isClockwise := isCW }
  else
    let theta := 4 * F.arctan |b|
    let radius := D / (2 * F.sin (theta / 2))
    let midpoint := s.add (distance.div 2)
    let normal := ((Pt.mk (-distance.y) distance.x).normalize F).mul
      |radius * F.cos (theta / 2)|
    let center := if isCW then midpoint.sub normal else midpoint.add normal
    let sa := F.atan2 (s.y - center.y) (s.x - center.x)
    let ea := F.atan2 (e.y - center.y) (e.x - center.x)
    let ea2 := if isCW then (if sa ≤ ea then ea - 2 * F.pi else ea)
      else (if ea ≤ sa then ea + 2 * F.pi else ea)
    { start := s, endPt := some e, bulge := some b, center := center
      radius := radius, startAngle := sa, endAngle := ea2, isClockwise := isCW }

/-- Octant-defined arc construction: `Arc.fromOctant` composed with the
private constructor's octant branch (`arc.ts`); `OCTANT_ANGLE = π/4`, and an
octant count of `0` stands for eight octants. -/
def Arc.fromOctant (F : RealFns α) (center : Pt α) (radius : α)
    (startOctant octantCount : Nat) (isClockwise : Bool) : Arc α :=
  let startAngle := (startOctant : α) * (F.pi / 4)
  let span := ((if octantCount = 0 then 8 else octantCount : Nat) : α) * (F.pi / 4)
  let endAngle := startAngle + (if isClockwise then -span else span)
  { start := center.add ⟨radius * F.cos startAngle, radius * F.sin startAngle⟩
    endPt := none, bulge := none, center := center, radius := radius
    startAngle := startAngle, endAngle := endAngle, isClockwise := isClockwise }

variable [FloorRing α]

/-- Tessellation (`Arc.tessellate`): start point, intermediate points every
`circleSpan` radians, end point.  When the radius is zero the source returns
the two endpoints; for an octant arc that branch dereferences the absent
`end` point and would throw a `TypeError` in JavaScript, which the total
embedding renders by repeating the start point. -/
def Arc.tessellate (arc : Arc α) (F : RealFns α) (circleSpan : α) : List (Pt α) :=
  if arc.radius = 0 then [arc.start, arc.endPt.getD arc.start]
  else
    let includedAngle := |arc.endAngle - arc.startAngle|
    let numSegments : ℤ := max 1 ⌊includedAngle / circleSpan⌋
    let mids := ((List.range numSegments.toNat).drop 1).map (fun i =>
      let t := (i : α) / (numSegments : α)
      let angle := if arc.isClockwise then arc.startAngle - t * includedAngle
        else arc.startAngle + t * includedAngle
      arc.center.add ⟨arc.radius * F.cos angle, arc.radius * F.sin angle⟩)
    let endP := match arc.endPt with
      | some e => e
      | none => arc.center.add
          ⟨arc.radius * F.cos arc.endAngle, arc.radius * F.sin arc.endAngle⟩
    (arc.start :: mids) ++ [endP]

/-! ## Font data model (`fontData.ts`) -/

/-- Text orientation. -/
inductive TextDir : Type
  | horizontal
  | vertical
deriving DecidableEq, Repr

/-- The SHX font sub-type (`ShxFontType`). -/
inductive ShxFontType : Type
  | shapes
  | bigfont
  | unifont
deriving DecidableEq, Repr

/-- Content section of a font (`ShxFontContentData`).  The repository
declares two variants of this record: the one next to the shape parser also
carries the reference `height` (and a `width` that no code reads, omitted
here), while the one next to the content parsers stops at `baseUp`/`baseDown`.
The embedding carries the union of the fields that are read somewhere.
The glyph map `Record<number, Uint8Array>` is rendered as a partial map. -/
structure ShxFontContentData (α : Type) where
  data : Nat → Option (List Nat)
  info : String
  orientation : TextDir
  baseUp : α
  baseDown : α
  height : α
  isExtended : Bool

/-- Header section of a font (`ShxFontHeaderData`). -/
structure ShxFontHeaderData : Type where
  fontType : ShxFontType
  fileHeader : String
  fileVersion : String

/-- A parsed font (`ShxFontData`). -/
structure ShxFontData (α : Type) where
  header : ShxFontHeaderData
  content : ShxFontContentData α

/-- Modelled from the spec: the content decoder that populates the `height`
field read by `getCharShape` is not among the sources (the decoders present
stop at `baseUp`/`baseDown`); the spec fixes the reference unit of
`getCharShape` to the font's `baseUp` metric, so a spec-conformant content
record satisfies this predicate. -/
def RefUnitIsBaseUp (c : ShxFontContentData α) : Prop := c.height = c.baseUp

/-! ## Shapes (`shape.ts`) -/

/-- A parsed character shape (`ShxShape`): committed polylines plus the final
pen position. -/
structure ShxShape (α : Type) where
  lastPoint : Option (Pt α)
  polylines : List (List (Pt α))
deriving DecidableEq, Repr

/-- Axis-aligned bounding box (`Box2d`). -/
structure Box2d (α : Type) where
  minX : α
  minY : α
  maxX : α
  maxY : α
deriving DecidableEq, Repr

/-- Bounding box of a shape (`ShxShape.bbox`): min/max folds over every point
of every polyline.  The source starts the folds from `±Infinity`, for which
`Math.min`/`Math.max` are neutral; the embedding folds from the first point
and returns the zero box for a shape without points (the source would report
infinite bounds there, a difference no caller can observe: both sides of the
`> 0` guards that consume the box fail either way, and an empty shape has no
point to offset). -/
def ShxShape.bbox (s : ShxShape α) : Box2d α :=
  match s.polylines.flatten with
  | [] => ⟨0, 0, 0, 0⟩
  | p :: ps => ps.foldl
      (fun b q => ⟨min b.minX q.x, min b.minY q.y, max b.maxX q.x, max b.maxY q.y⟩)
      ⟨p.x, p.y, p.x, p.y⟩

/-- Shape translation (`ShxShape.offset`, fresh-instance path, the only one
the shape parser uses). -/
def ShxShape.offset (s : ShxShape α) (p : Pt α) : ShxShape α :=
  ⟨s.lastPoint.map (·.add p), s.polylines.map (·.map (·.add p))⟩

/-! ## Shape parser state (`shapeParser.ts`) -/

/-- The two memoisation maps of `ShxShapeParser` (`shapeCache`, keyed by
character code, and `shapeData`; the source keeps both and fills them with the
same entries). -/
structure Caches (α : Type) where
  shapeCache : Nat → Option (ShxShape α)
  shapeData : Nat → Option (ShxShape α)

/-- The caches of a freshly constructed parser, and the result of
`ShxShapeParser.release()` (both maps cleared). -/
def Caches.empty : Caches α := ⟨fun _ => none, fun _ => none⟩

/-- `Map.set` on a memoisation map. -/
def cacheInsert (m : Nat → Option (ShxShape α)) (k : Nat) (v : ShxShape α) :
    Nat → Option (ShxShape α) :=
  fun c => if c = k then some v else m c

/-- The interpreter state threaded through `parseShape` (the mutable `state`
object of the source). -/
structure PState (α : Type) where
  currentPoint : Pt α
  polylines : List (List (Pt α))
  currentPolyline : List (Pt α)
  sp : List (Pt α)
  isPenDown : Bool
  scale : α
deriving DecidableEq, Repr

/-- Initial interpreter state of `parseShape`. -/
def initPState : PState α := ⟨⟨0, 0⟩, [], [], [], false, 1⟩

/-- Scaling options (`ScalingOptions`). -/
structure ScalingOptions (α : Type) where
  factor : Option α
  height : Option α
  width : Option α

/-- Sign decoding of a byte (`ShxFileReader.byteToSByte`). -/
def byteToSByte (value : Nat) : ℤ :=
  if 127 < value then (value : ℤ) - 256 else value

/-- Signed byte as a coordinate value. -/
def sbyteF (value : Nat) : α := ((byteToSByte value : ℤ) : α)

/-- Byte access `data[i]`.  Past the end JavaScript yields `undefined`; the
embedding totalises the access with 0 (which also makes the `(0,0)`
sentinels of the run opcodes terminate at the end of the data). -/
def getByte (data : List Nat) (i : Nat) : Nat := data.getD i 0

/-- Uniform scaling (`scaleShapeByFactor`): every coordinate of a deep copy
of the polylines and of the last point is multiplied by the factor. -/
def scaleShapeByFactor (shape : ShxShape α) (factor : α) : ShxShape α :=
  ⟨shape.lastPoint.map (·.mul factor),
   shape.polylines.map (·.map (·.mul factor))⟩

/-- Non-uniform scaling (`scaleShapeByHeightAndWidth`): per-axis factors
derived from the bounding box, an axis with non-positive extent keeping
factor 1. -/
def scaleShapeByHeightAndWidth (shape : ShxShape α) (height width : α) :
    ShxShape α :=
  let bbox := shape.bbox
  let shapeHeight := bbox.maxY - bbox.minY
  let shapeWidth := bbox.maxX - bbox.minX
  let heightScale := if 0 < shapeHeight then height / shapeHeight else 1
  let widthScale := if 0 < shapeWidth then width / shapeWidth else 1
  ⟨shape.lastPoint.map (fun p => ⟨p.x * widthScale, p.y * heightScale⟩),
   shape.polylines.map (·.map (fun p => ⟨p.x * widthScale, p.y * heightScale⟩))⟩

/-- Unit direction table of the packed vector opcodes
(`getVectorForDirection`); the switch leaves the zero vector for an
unlisted direction. -/
def getVectorForDirection (dir : Nat) : Pt α :=
  match dir with
  | 0 => ⟨1, 0⟩
  | 1 => ⟨1, 1 / 2⟩
  | 2 => ⟨1, 1⟩
  | 3 => ⟨1 / 2, 1⟩
  | 4 => ⟨0, 1⟩
  | 5 => ⟨-(1 / 2), 1⟩
  | 6 => ⟨-1, 1⟩
  | 7 => ⟨-1, 1 / 2⟩
  | 8 => ⟨-1, 0⟩
  | 9 => ⟨-1, -(1 / 2)⟩
  | 10 => ⟨-1, -1⟩
  | 11 => ⟨-(1 / 2), -1⟩
  | 12 => ⟨0, -1⟩
  | 13 => ⟨1 / 2, -1⟩
  | 14 => ⟨1, -1⟩
  | 15 => ⟨1, -(1 / 2)⟩
  | _ => ⟨0, 0⟩

/-- A packed vector opcode (`handleVectorCommand`): high nibble = length,
low nibble = direction; the pen moves by `direction × length × scale` and,
when down, records the new position. -/
def handleVectorCommand (cmd : Nat) (st : PState α) : PState α :=
  let len := (cmd &&& 0xf0) >>> 4
  let dir := cmd &&& 0x0f
  let vec : Pt α := getVectorForDirection dir
  let cp := st.currentPoint.add (vec.mul ((len : α) * st.scale))
  { st with currentPoint := cp
            currentPolyline :=
              if st.isPenDown then st.currentPolyline ++ [cp]
              else st.currentPolyline }

/-- Opcode 8 (`handleXYDisplacement`): one signed-byte displacement pair,
scaled. -/
def handleXYDisplacement (data : List Nat) (i : Nat) (st : PState α) :
    Nat × PState α :=
  let vec : Pt α := ⟨sbyteF (getByte data (i + 1)), sbyteF (getByte data (i + 2))⟩
  let cp := st.currentPoint.add (vec.mul st.scale)
  (i + 2,
   { st with currentPoint := cp
             currentPolyline :=
               if st.isPenDown then st.currentPolyline ++ [cp]
               else st.currentPolyline })

/-- Loop of opcode 9 (`handleMultipleXYDisplacements`): displacement pairs
until the `(0,0)` sentinel.  The fuel is only an upper bound on the number of
iterations: each one advances the index by two, and reads past the end of the
data produce the sentinel, so `data.length + 1` iterations always reach it. -/
def multiXYLoop (fuel : Nat) (data : List Nat) (i : Nat) (cp : Pt α)
    (scale : α) (pen : Bool) (poly : List (Pt α)) : Nat × Pt α × List (Pt α) :=
  match fuel with
  | 0 => (i, cp, poly)
  | n + 1 =>
    let vx : α := sbyteF (getByte data (i + 1))
    let vy : α := sbyteF (getByte data (i + 2))
    if vx = 0 ∧ vy = 0 then (i + 2, cp, poly)
    else
      let cp2 := cp.add (Pt.mul ⟨vx, vy⟩ scale)
      multiXYLoop n data (i + 2) cp2 scale pen
        (if pen then poly ++ [cp2] else poly)

/-- Opcode 9 entry point. -/
def handleMultipleXYDisplacements (data : List Nat) (i : Nat) (st : PState α) :
    Nat × PState α :=
  let r := multiXYLoop (data.length + 1) data i st.currentPoint st.scale
    st.isPenDown st.currentPolyline
  (r.1, { st with currentPoint := r.2.1, currentPolyline := r.2.2 })

/-- Opcode 10 (`handleOctantArc`).  The source masks the sign-extended flag
with `0x70`/`0x07`; on a byte-ranged input this equals masking the raw byte,
which is how the masks are rendered here.  When the pen is down the point
recorded at pen-down time is discarded (`currentPolyline.pop()`) and the
arc's own tessellation is appended; the pen always jumps to the arc's last
tessellated point. -/
def handleOctantArc (F : RealFns α) (data : List Nat) (i : Nat)
    (st : PState α) : Nat × PState α :=
  let radius := (getByte data (i + 1) : α) * st.scale
  let fb := getByte data (i + 2)
  let startOctant := (fb &&& 0x70) >>> 4
  let octantCount := fb &&& 0x07
  let isCW : Bool := decide (byteToSByte fb < 0)
  let startRadian := (F.pi / 4) * (startOctant : α)
  let center := st.currentPoint.sub
    ⟨F.cos startRadian * radius, F.sin startRadian * radius⟩
  let arc := Arc.fromOctant F center radius startOctant octantCount isCW
  let arcPts := arc.tessellate F (F.pi / 18)
  (i + 2,
   { st with
       currentPolyline :=
         if st.isPenDown then st.currentPolyline.dropLast ++ arcPts
         else st.currentPolyline
       currentPoint := arcPts.getLast?.getD st.currentPoint })

/-- Tessellation loop of opcode 11 (`handleFractionalArc`): step by `delta`
while the next step stays short of `endRadian`.  The fuel of 64 bounds the
iteration count; the span is at most `2π + π/2` and each step is `π/18`, so
at most 45 iterations occur. -/
def fracArcLoop (F : RealFns α) (pos : Bool) (fuel : Nat) (center : Pt α)
    (r delta endRadian cur : α) : List (Pt α) :=
  match fuel with
  | 0 => []
  | n + 1 =>
    if (if pos then cur + delta < endRadian else endRadian < cur + delta) then
      let cur2 := cur + delta
      center.add ⟨r * F.cos cur2, r * F.sin cur2⟩ ::
        fracArcLoop F pos n center r delta endRadian cur2
    else []

/-- Opcode 11 (`handleFractionalArc`): five operand bytes giving fractional
octant offsets, a two-byte radius and the flag byte. -/
def handleFractionalArc (F : RealFns α) (data : List Nat) (i : Nat)
    (st : PState α) : Nat × PState α :=
  let startOffset := getByte data (i + 1)
  let endOffset := getByte data (i + 2)
  let hr := getByte data (i + 3)
  let lr := getByte data (i + 4)
  let r := ((hr * 255 + lr : Nat) : α) * st.scale
  let fb := getByte data (i + 5)
  let n1 := (fb &&& 0x70) >>> 4
  let n2a := fb &&& 0x07
  let n2b := if n2a = 0 then 8 else n2a
  let n2 := if endOffset ≠ 0 then n2b - 1 else n2b
  let pi4 := F.pi / 4
  let neg : Bool := decide (byteToSByte fb < 0)
  let span := if neg then -(pi4 * (n2 : α)) else pi4 * (n2 : α)
  let delta := if neg then -(F.pi / 18) else F.pi / 18
  let sign : α := if neg then -1 else 1
  let startRadian := pi4 * (n1 : α) + ((pi4 * (startOffset : α)) / 256) * sign
  let endRadian := pi4 * (n1 : α) + span + ((pi4 * (endOffset : α)) / 256) * sign
  let center := st.currentPoint.sub ⟨r * F.cos startRadian, r * F.sin startRadian⟩
  let cp2 := center.add ⟨r * F.cos endRadian, r * F.sin endRadian⟩
  (i + 5,
   { st with
       currentPoint := cp2
       currentPolyline :=
         if st.isPenDown then
           st.currentPolyline
             ++ [center.add ⟨r * F.cos startRadian, r * F.sin startRadian⟩]
             ++ fracArcLoop F (decide ((0 : α) < delta)) 64 center r delta
                 endRadian startRadian
             ++ [center.add ⟨r * F.cos endRadian, r * F.sin endRadian⟩]
         else st.currentPolyline })

/-- Shared segment routine of opcodes 12/13 (`handleArcSegment`): scale the
displacement, clamp the bulge at −127, emit either a straight point or the
tessellated bulge arc without its first point, and advance the pen. -/
def handleArcSegment (F : RealFns α) (currentPoint vec0 : Pt α) (bulge0 : ℤ)
    (scale : α) (isPenDown : Bool) (currentPolyline : List (Pt α)) :
    Pt α × List (Pt α) :=
  let vec : Pt α := ⟨vec0.x * scale, vec0.y * scale⟩
  let bulge := if bulge0 < -127 then (-127 : ℤ) else bulge0
  let poly :=
    if isPenDown then
      if bulge = 0 then currentPolyline ++ [currentPoint.add vec]
      else
        let e := currentPoint.add vec
        let arc := Arc.fromBulge F currentPoint e ((bulge : α) / 127)
        currentPolyline ++ (arc.tessellate F (F.pi / 18)).drop 1
    else currentPolyline
  (currentPoint.add vec, poly)

/-- Opcode 12 (`handleBulgeArc`): one displacement pair plus a bulge byte. -/
def handleBulgeArc (F : RealFns α) (data : List Nat) (i : Nat)
    (st : PState α) : Nat × PState α :=
  let vec : Pt α := ⟨sbyteF (getByte data (i + 1)), sbyteF (getByte data (i + 2))⟩
  let bulge := byteToSByte (getByte data (i + 3))
  let r := handleArcSegment F st.currentPoint vec bulge st.scale st.isPenDown
    st.currentPolyline
  (i + 3, { st with currentPoint := r.1, currentPolyline := r.2 })

/-- Loop of opcode 13 (`handleMultipleBulgeArcs`): `(dx,dy,bulge)` triples
until the `(0,0)` displacement sentinel; fuel as in `multiXYLoop`. -/
def multiBulgeLoop (F : RealFns α) (fuel : Nat) (data : List Nat) (i : Nat)
    (cp : Pt α) (scale : α) (pen : Bool) (poly : List (Pt α)) :
    Nat × Pt α × List (Pt α) :=
  match fuel with
  | 0 => (i, cp, poly)
  | n + 1 =>
    let vx : α := sbyteF (getByte data (i + 1))
    let vy : α := sbyteF (getByte data (i + 2))
    if vx = 0 ∧ vy = 0 then (i + 2, cp, poly)
    else
      let bulge := byteToSByte (getByte data (i + 3))
      let r := handleArcSegment F cp ⟨vx, vy⟩ bulge scale pen poly
      multiBulgeLoop F n data (i + 3) r.1 scale pen r.2

/-- Opcode 13 entry point. -/
def handleMultipleBulgeArcs (F : RealFns α) (data : List Nat) (i : Nat)
    (st : PState α) : Nat × PState α :=
  let r := multiBulgeLoop F (data.length + 1) data i st.currentPoint st.scale
    st.isPenDown st.currentPolyline
  (r.1, { st with currentPoint := r.2.1, currentPolyline := r.2.2 })

/-- Skip loop for an opcode-9 operand run inside `skipCode`; raw-byte
sentinel test, fuel as in `multiXYLoop`. -/
def skipXYPairs (fuel : Nat) (data : List Nat) (index : Nat) : Nat :=
  match fuel with
  | 0 => index
  | n + 1 =>
    let x := getByte data (index + 1)
    let y := getByte data (index + 2)
    if x = 0 ∧ y = 0 then index + 2 else skipXYPairs n data (index + 2)

/-- Skip loop for an opcode-13 operand run inside `skipCode`. -/
def skipBulgePairs (fuel : Nat) (data : List Nat) (index : Nat) : Nat :=
  match fuel with
  | 0 => index
  | n + 1 =>
    let x := getByte data (index + 1)
    let y := getByte data (index + 2)
    if x = 0 ∧ y = 0 then index + 2 else skipBulgePairs n data (index + 3)

/-- Operand skipping for the vertical-text marker (`skipCode`): returns the
index of the last operand byte of the opcode found at `index`. -/
def skipCode (fd : ShxFontData α) (data : List Nat) (index : Nat) : Nat :=
  match getByte data index with
  | 0x03 => index + 1
  | 0x04 => index + 1
  | 0x07 =>
    match fd.header.fontType with
    | .shapes => index + 1
    | .bigfont =>
      if getByte data (index + 1) = 0 then
        (index + 1) + (if fd.content.isExtended then 6 else 5)
      else index + 1
    | .unifont => index + 2
  | 0x08 => index + 2
  | 0x09 => skipXYPairs (data.length + 1) data index
  | 0x0a => index + 2
  | 0x0b => index + 5
  | 0x0c => index + 3
  | 0x0d => skipBulgePairs (data.length + 1) data index
  | _ => index

/-- Type of the recursive sub-glyph interpreter handed down to the opcode
handlers; it returns the updated caches together with the parse outcome (a
thrown interpreter error leaves the caches as mutated so far, as in the
source, where the maps outlive the exception). -/
abbrev SubParser (α : Type) :=
  List Nat → Caches α → Caches α × Except String (ShxShape α)

/-- Normalise a base shape to the origin of its bounding box, scale it to the
requested extents and translate it to the insertion point (tail of
`getScaledSubshapeAtInsertPoint`). -/
def placeSubshape (baseShape : ShxShape α) (width height : α)
    (insertPoint : Pt α) : ShxShape α :=
  let bbox := baseShape.bbox
  let normalized := baseShape.offset ⟨-bbox.minX, -bbox.minY⟩
  (scaleShapeByHeightAndWidth normalized height width).offset insertPoint

/-- Sub-glyph lookup (`getScaledSubshapeAtInsertPoint`): take the cached
unscaled shape or parse and cache it, then place it; an unknown code yields
no shape. -/
def getScaledSubshapeAtInsertPoint (fd : ShxFontData α) (subParse : SubParser α)
    (code : Nat) (width height : α) (insertPoint : Pt α) (caches : Caches α) :
    Caches α × Except String (Option (ShxShape α)) :=
  match caches.shapeCache code with
  | some baseShape => (caches, .ok (some (placeSubshape baseShape width height insertPoint)))
  | none =>
    match fd.content.data code with
    | none => (caches, .ok none)
    | some d =>
      match subParse d caches with
      | (c2, .error e) => (c2, .error e)
      | (c2, .ok baseShape) =>
        (⟨cacheInsert c2.shapeCache code baseShape,
          cacheInsert c2.shapeData code baseShape⟩,
         .ok (some (placeSubshape baseShape width height insertPoint)))

/-- Opcode 7 (`handleSubshapeCommand`): commit a pending polyline of at
least two points, decode the sub-type-dependent operand fields, splice in
the placed sub-glyph's polylines, and clear the current polyline; the pen
position is left unchanged (the update line is commented out in the
source). -/
def handleSubshapeCommand (_F : RealFns α) (fd : ShxFontData α)
    (subParse : SubParser α) (data : List Nat) (i : Nat) (st : PState α)
    (caches : Caches α) : Caches α × Except String (Nat × PState α) :=
  let height0 := st.scale * fd.content.height
  let width0 := height0
  let origin0 := st.currentPoint
  let polys1 :=
    if 1 < st.currentPolyline.length then st.polylines ++ [st.currentPolyline]
    else st.polylines
  let dec : Nat × α × α × Pt α × Nat :=
    match fd.header.fontType with
    | .shapes => (getByte data (i + 1), width0, height0, origin0, i + 1)
    | .bigfont =>
      if getByte data (i + 1) = 0 then
        let sub2 := ((getByte data (i + 2)) <<< 8) ||| getByte data (i + 3)
        let ox := sbyteF (getByte data (i + 4)) * st.scale
        let oy := sbyteF (getByte data (i + 5)) * st.scale
        if fd.content.isExtended then
          (sub2, (getByte data (i + 6) : α) * st.scale,
           (getByte data (i + 7) : α) * st.scale, ⟨ox, oy⟩, i + 7)
        else
          (sub2, width0, (getByte data (i + 6) : α) * st.scale, ⟨ox, oy⟩, i + 6)
      else (getByte data (i + 1), width0, height0, origin0, i + 1)
    | .unifont =>
      (((getByte data (i + 1)) <<< 8) ||| getByte data (i + 2), width0, height0,
       origin0, i + 3)
  match (if dec.1 ≠ 0 then
          getScaledSubshapeAtInsertPoint fd subParse dec.1 dec.2.1 dec.2.2.1
            dec.2.2.2.1 caches
         else (caches, .ok none)) with
  | (c2, .error e) => (c2, .error e)
  | (c2, .ok os) =>
    let polys2 := match os with
      | some shape => polys1 ++ shape.polylines
      | none => polys1
    (c2, .ok (dec.2.2.2.2, { st with polylines := polys2, currentPolyline := [] }))

/-- One special opcode (`handleSpecialCommand`): dispatch on the command
byte; only the push opcode can throw, and only the sub-glyph opcode touches
the caches.  The source's switch has no case for 15, which therefore leaves
the state unchanged. -/
def handleSpecialCommand (F : RealFns α) (fd : ShxFontData α)
    (subParse : SubParser α) (cmd : Nat) (data : List Nat) (i : Nat)
    (st : PState α) (caches : Caches α) :
    Caches α × Except String (Nat × PState α) :=
  match cmd with
  | 0 => (caches, .ok (i, { st with currentPolyline := [], isPenDown := false }))
  | 1 => (caches, .ok (i, { st with isPenDown := true
                                    currentPolyline := st.currentPolyline ++ [st.currentPoint] }))
  | 2 => (caches, .ok (i, { st with isPenDown := false
                                    polylines :=
                                      if 1 < st.currentPolyline.length then
                                        st.polylines ++ [st.currentPolyline]
                                      else st.polylines
                                    currentPolyline := [] }))
  | 3 => (caches, .ok (i + 1, { st with scale := st.scale / (getByte data (i + 1) : α) }))
  | 4 => (caches, .ok (i + 1, { st with scale := st.scale * (getByte data (i + 1) : α) }))
  | 5 =>
    if st.sp.length = 4 then
      (caches, .error "The position stack is only four locations deep")
    else (caches, .ok (i, { st with sp := st.sp ++ [st.currentPoint] }))
  | 6 => (caches, .ok (i,
      match st.sp.getLast? with
      | some p => { st with currentPoint := p, sp := st.sp.dropLast }
      | none => st))
  | 7 => handleSubshapeCommand F fd subParse data i st caches
  | 8 => (caches, .ok (handleXYDisplacement data i st))
  | 9 => (caches, .ok (handleMultipleXYDisplacements data i st))
  | 10 => (caches, .ok (handleOctantArc F data i st))
  | 11 => (caches, .ok (handleFractionalArc F data i st))
  | 12 => (caches, .ok (handleBulgeArc F data i st))
  | 13 => (caches, .ok (handleMultipleBulgeArcs F data i st))
  | 14 => (caches, .ok (skipCode fd data (i + 1), st))
  | _ => (caches, .ok (i, st))

/-- The main interpretation loop of `parseShape`: while the index is in
range, dispatch the byte and continue after the handler's final index.  The
fuel only bounds the iteration count; every iteration advances the index by
at least one, so `data.length` iterations always leave the range. -/
def runLoop (F : RealFns α) (fd : ShxFontData α) (subParse : SubParser α) :
    Nat → List Nat → Nat → PState α → Caches α →
    Caches α × Except String (PState α)
  | 0, _, _, st, c => (c, .ok st)
  | n + 1, data, i, st, c =>
    if i < data.length then
      let cb := getByte data i
      if cb ≤ 0x0f then
        match handleSpecialCommand F fd subParse cb data i st c with
        | (c2, .error e) => (c2, .error e)
        | (c2, .ok (i2, st2)) => runLoop F fd subParse n data (i2 + 1) st2 c2
      else runLoop F fd subParse n data (i + 1) (handleVectorCommand cb st) c
    else (c, .ok st)

/-- Glyph interpretation (`parseShape`): run the loop from a fresh state and
package the final pen position and committed polylines.  The first argument
bounds the sub-glyph recursion depth, which is unbounded in the source
(JavaScript call stack); exhausting it reports an error. -/
def parseShape (F : RealFns α) (fd : ShxFontData α) :
    Nat → List Nat → Caches α → Caches α × Except String (ShxShape α)
  | 0, _, c => (c, .error "Maximum subshape recursion depth exceeded")
  | n + 1, data, c =>
    match runLoop F fd (parseShape F fd n) data.length data 0 initPState c with
    | (c2, .error e) => (c2, .error e)
    | (c2, .ok st) => (c2, .ok ⟨some st.currentPoint, st.polylines⟩)

/-- The base-shape resolution step of `parseAndScale`: code 0 and unknown
codes have no shape; otherwise the cached unscaled shape is used, or the
bytecode is parsed and both caches are filled. -/
def unscaledGlyph (F : RealFns α) (fd : ShxFontData α) (rfuel : Nat)
    (code : Nat) (caches : Caches α) :
    Caches α × Except String (Option (ShxShape α)) :=
  if code = 0 then (caches, .ok none)
  else
    match caches.shapeCache code with
    | some s => (caches, .ok (some s))
    | none =>
      match fd.content.data code with
      | none => (caches, .ok none)
      | some d =>
        match parseShape F fd rfuel d caches with
        | (c2, .error e) => (c2, .error e)
        | (c2, .ok s) =>
          (⟨cacheInsert c2.shapeCache code s, cacheInsert c2.shapeData code s⟩,
           .ok (some s))

/-- `parseAndScale`: resolve the base shape, then scale it by the uniform
factor when given, else by height/width (width defaulting to height), else
return it unscaled. -/
def parseAndScale (F : RealFns α) (fd : ShxFontData α) (rfuel : Nat)
    (code : Nat) (options : ScalingOptions α) (caches : Caches α) :
    Caches α × Except String (Option (ShxShape α)) :=
  match unscaledGlyph F fd rfuel code caches with
  | (c2, .error e) => (c2, .error e)
  | (c2, .ok none) => (c2, .ok none)
  | (c2, .ok (some base)) =>
    (c2, .ok (some
      (match options.factor with
       | some f => scaleShapeByFactor base f
       | none =>
         match options.height with
         | some h => scaleShapeByHeightAndWidth base h (options.width.getD h)
         | none => base)))

/-- `getCharShape`: parse and scale by the uniform factor
`size / content.height`. -/
def getCharShape (F : RealFns α) (fd : ShxFontData α) (rfuel : Nat)
    (code : Nat) (size : α) (caches : Caches α) :
    Caches α × Except String (Option (ShxShape α)) :=
  parseAndScale F fd rfuel code ⟨some (size / fd.content.height), none, none⟩ caches

/-! ## Binary cursor (`fileReader.ts`)

The cursor keeps a signed position: `skip` with a negative change count can
move it below zero in JavaScript, after which every typed read throws (the
`DataView` accessors reject negative offsets with a `RangeError`); the
embedding renders that second error source with a dedicated message. -/

/-- The out-of-range message of `throwOutOfRangeError`. -/
def outOfRange (p : ℤ) (len : Nat) : String :=
  "Position " ++ toString p ++ " is out of range for the data length " ++
    toString len ++ "!"

/-- The binary cursor (`ShxFileReader`). -/
structure ShxFileReader where
  data : List Nat
  pos : ℤ

/-- `readBytes`: explicit bounds check, then the typed-array view (which in
JavaScript additionally rejects a negative start or length). -/
def ShxFileReader.readBytes (r : ShxFileReader) (len : ℤ) :
    Except String (List Nat × ShxFileReader) :=
  if (r.data.length : ℤ) < r.pos + len then
    .error (outOfRange (r.pos + len) r.data.length)
  else if r.pos < 0 ∨ len < 0 then .error "RangeError"
  else .ok ((r.data.drop r.pos.toNat).take len.toNat,
    { r with pos := r.pos + len })

/-- `skip`: bounds check and advance; a negative length passes the check and
moves the position backwards, as in the source. -/
def ShxFileReader.skip (r : ShxFileReader) (len : ℤ) :
    Except String ShxFileReader :=
  if (r.data.length : ℤ) < r.pos + len then
    .error (outOfRange (r.pos + len) r.data.length)
  else .ok { r with pos := r.pos + len }

/-- `readUint16`, little- or big-endian. -/
def ShxFileReader.readUint16 (r : ShxFileReader)
    (littleEndian : Bool := true) : Except String (Nat × ShxFileReader) :=
  if (r.data.length : ℤ) < r.pos + 2 then
    .error (outOfRange (r.pos + 2) r.data.length)
  else if r.pos < 0 then .error "RangeError"
  else
    let b0 := r.data.getD r.pos.toNat 0
    let b1 := r.data.getD (r.pos.toNat + 1) 0
    .ok (if littleEndian then b0 + 256 * b1 else 256 * b0 + b1,
      { r with pos := r.pos + 2 })

/-- `readInt16` (little-endian, sign-decoded). -/
def ShxFileReader.readInt16 (r : ShxFileReader) :
    Except String (ℤ × ShxFileReader) :=
  if (r.data.length : ℤ) < r.pos + 2 then
    .error (outOfRange (r.pos + 2) r.data.length)
  else if r.pos < 0 then .error "RangeError"
  else
    let u := r.data.getD r.pos.toNat 0 + 256 * r.data.getD (r.pos.toNat + 1) 0
    .ok (if 32768 ≤ u then (u : ℤ) - 65536 else (u : ℤ),
      { r with pos := r.pos + 2 })

/-- `readUint32` (little-endian). -/
def ShxFileReader.readUint32 (r : ShxFileReader) :
    Except String (Nat × ShxFileReader) :=
  if (r.data.length : ℤ) < r.pos + 4 then
    .error (outOfRange (r.pos + 4) r.data.length)
  else if r.pos < 0 then .error "RangeError"
  else
    let u := r.data.getD r.pos.toNat 0 + 256 * r.data.getD (r.pos.toNat + 1) 0
      + 65536 * r.data.getD (r.pos.toNat + 2) 0
      + 16777216 * r.data.getD (r.pos.toNat + 3) 0
    .ok (u, { r with pos := r.pos + 4 })

/-- `readInt32` (little-endian, sign-decoded). -/
def ShxFileReader.readInt32 (r : ShxFileReader) :
    Except String (ℤ × ShxFileReader) :=
  if (r.data.length : ℤ) < r.pos + 4 then
    .error (outOfRange (r.pos + 4) r.data.length)
  else if r.pos < 0 then .error "RangeError"
  else
    let u := r.data.getD r.pos.toNat 0 + 256 * r.data.getD (r.pos.toNat + 1) 0
      + 65536 * r.data.getD (r.pos.toNat + 2) 0
      + 16777216 * r.data.getD (r.pos.toNat + 3) 0
    .ok (if 2147483648 ≤ u then (u : ℤ) - 4294967296 else (u : ℤ),
      { r with pos := r.pos + 4 })

/-- `setPosition`: bounds check and reposition. -/
def ShxFileReader.setPosition (r : ShxFileReader) (p : ℤ) :
    Except String ShxFileReader :=
  if (r.data.length : ℤ) < p then .error (outOfRange p r.data.length)
  else .ok { r with pos := p }

/-! ## Content decoders (`contentParser.ts`)

The platform `TextDecoder` used by the Shapes and Unifont decoders is
abstracted as a function from bytes to character codes (it never throws with
default options); the Bigfont decoder's hand-written `utf8ArrayToStr` is
embedded directly.  The `height` field of each produced record is set to the
final `baseUp` value — modelled from the spec, which fixes the reference unit
at the `baseUp` metric (the source revision that populates `height` is not
among the sources). -/

/-- The record returned when decoding a content section throws
(`catch` blocks of the three parsers): empty glyph mapping, failure info
string, `baseUp = 8`, `baseDown = 2`, horizontal orientation.  Modelled from
the spec: `height` equals the default `baseUp`. -/
def fallbackContentData : ShxFontContentData α :=
  { data := fun _ => none, info := "Failed to parse font file", baseUp := 8
    baseDown := 2, orientation := .horizontal, height := 8, isExtended := false }

/-- Character codes rendered as a Lean string (`String.fromCharCode`
composition; code points outside the valid `Char` range degrade to the
default character, which no claim observes). -/
def charsToString (l : List Nat) : String := String.mk (l.map Char.ofNat)

/-- The Bigfont decoder's hand-written UTF-8 decoding (`utf8ArrayToStr`):
reads past the end behave as the neutral byte 0, matching the JavaScript
bitwise operators on `undefined`; a leading nibble of 8–11 or 15 falls
through the switch, consuming one byte and emitting nothing. -/
def utf8ArrayToStr : List Nat → List Nat
  | [] => []
  | c :: rest =>
    if c >>> 4 ≤ 7 then c :: utf8ArrayToStr rest
    else if c >>> 4 = 12 ∨ c >>> 4 = 13 then
      (((c &&& 0x1f) <<< 6) ||| (rest.headD 0 &&& 0x3f)) ::
        utf8ArrayToStr (rest.drop 1)
    else if c >>> 4 = 14 then
      ((((c &&& 0x0f) <<< 12) ||| ((rest.headD 0 &&& 0x3f) <<< 6)) |||
          (rest.getD 1 0 &&& 0x3f)) :: utf8ArrayToStr (rest.drop 2)
    else utf8ArrayToStr rest
termination_by l => l.length
decreasing_by all_goals (simp only [List.length_drop, List.length_cons]; omega)

/-- The shared info-block interpretation of the Shapes and Unifont decoders:
find the NUL in the decoded text, keep the label before it, and when four
more bytes exist read `baseUp`, `baseDown` and the orientation byte
(0 = horizontal).  The byte reads index the raw bytes with the decoded-text
position, exactly as the source does. -/
def applyInfoBlock (decode : List Nat → List Nat) (infoData : List Nat)
    (fd0 : ShxFontContentData α) : ShxFontContentData α :=
  let info := decode infoData
  match info.findIdx? (· == 0) with
  | none => fd0
  | some index =>
    let fd1 := { fd0 with info := charsToString (info.take index) }
    if index + 3 < infoData.length then
      { fd1 with baseUp := (infoData.getD (index + 1) 0 : α)
                 baseDown := (infoData.getD (index + 2) 0 : α)
                 orientation :=
                   if infoData.getD (index + 3) 0 = 0 then .horizontal
                   else .vertical
                 height := (infoData.getD (index + 1) 0 : α) }
    else fd1

/-- Descriptor table of the Shapes decoder: `count` pairs `(code, length)`,
keeping only those with positive length; read failures propagate to the
enclosing catch. -/
def readShapeDescriptors : Nat → ShxFileReader → List (Nat × Nat) →
    Except String (List (Nat × Nat) × ShxFileReader)
  | 0, r, acc => .ok (acc, r)
  | n + 1, r, acc =>
    match r.readUint16 with
    | .error e => .error e
    | .ok (code, r1) =>
      match r1.readUint16 with
      | .error e => .error e
      | .ok (len, r2) =>
        readShapeDescriptors n r2
          (if 0 < len then acc ++ [(code, len)] else acc)

/-- Payload pass of the Shapes decoder: read each descriptor's bytes (a
failed read is caught, logged and skipped), strip the NUL-terminated label,
and keep non-empty bytecode; a later entry for the same code overwrites an
earlier one. -/
def readShapeItems : List (Nat × Nat) → ShxFileReader →
    (Nat → Option (List Nat)) → (Nat → Option (List Nat)) × ShxFileReader
  | [], r, acc => (acc, r)
  | (code, len) :: rest, r, acc =>
    match r.readBytes (len : ℤ) with
    | .error _ => readShapeItems rest r acc
    | .ok (bytes, r2) =>
      let startOfBytecode := match bytes.findIdx? (· == 0) with
        | some idx => idx + 1
        | none => 0
      readShapeItems rest r2
        (if startOfBytecode < bytes.length then
          fun c => if c = code then some (bytes.drop startOfBytecode) else acc c
         else acc)

/-- The fallible body of `ShxShapeContentParser.parse`: skip the start/end
code pair, read and validate the count, read the descriptor table, read the
payloads, and interpret code 0's payload as the info block. -/
def shxShapeContentTryParse (decode : List Nat → List Nat)
    (r0 : ShxFileReader) : Except String (ShxFontContentData α) :=
  match r0.readBytes 4 with
  | .error e => .error e
  | .ok (_, r1) =>
    match r1.readInt16 with
    | .error e => .error e
    | .ok (count, r2) =>
      if count ≤ 0 then .error "Invalid shape count in font file"
      else
        match readShapeDescriptors count.toNat r2 [] with
        | .error e => .error e
        | .ok (items, r3) =>
          let di := readShapeItems items r3 (fun _ => none)
          let fd0 : ShxFontContentData α :=
            { data := di.1, info := "", baseUp := 8, baseDown := 2
              orientation := .horizontal, height := 8, isExtended := false }
          match di.1 0 with
          | some infoData => .ok (applyInfoBlock decode infoData fd0)
          | none => .ok fd0

/-- `ShxShapeContentParser.parse`: any exception of the body is caught and
replaced by the fallback record. -/
def shxShapeContentParse (decode : List Nat → List Nat) (r : ShxFileReader) :
    ShxFontContentData α :=
  match shxShapeContentTryParse decode r with
  | .ok c => c
  | .error _ => fallbackContentData

/-- Descriptor table of the Bigfont decoder: `count` triples
`(code big-endian, length, offset)`, keeping those that are not all zero. -/
def readBigfontDescriptors : Nat → ShxFileReader → List (Nat × Nat × Nat) →
    Except String (List (Nat × Nat × Nat) × ShxFileReader)
  | 0, r, acc => .ok (acc, r)
  | n + 1, r, acc =>
    match r.readUint16 false with
    | .error e => .error e
    | .ok (code, r1) =>
      match r1.readUint16 with
      | .error e => .error e
      | .ok (len, r2) =>
        match r2.readUint32 with
        | .error e => .error e
        | .ok (off, r3) =>
          readBigfontDescriptors n r3
            (if code ≠ 0 ∨ len ≠ 0 ∨ off ≠ 0 then acc ++ [(code, len, off)]
             else acc)

/-- Payload pass of the Bigfont decoder: seek to each offset and read the
bytes verbatim (no label stripping); a failed seek or read is caught and the
entry skipped. -/
def readBigfontItems : List (Nat × Nat × Nat) → ShxFileReader →
    (Nat → Option (List Nat)) → (Nat → Option (List Nat)) × ShxFileReader
  | [], r, acc => (acc, r)
  | (code, len, off) :: rest, r, acc =>
    match r.setPosition (off : ℤ) with
    | .error _ => readBigfontItems rest r acc
    | .ok r1 =>
      match r1.readBytes (len : ℤ) with
      | .error _ => readBigfontItems rest r1 acc
      | .ok (bytes, r2) =>
        readBigfontItems rest r2
          (fun c => if c = code then some bytes else acc c)

/-- Info-block interpretation of the Bigfont decoder: a 4-byte tail is the
standard layout `baseUp, baseDown, orientation`; any other tail length is the
Extended Bigfont layout `baseUp, <reserved>, orientation, baseDown` and sets
the extended flag. -/
def applyBigfontInfoBlock (infoData : List Nat)
    (fd0 : ShxFontContentData α) : ShxFontContentData α :=
  let info := utf8ArrayToStr infoData
  match info.findIdx? (· == 0) with
  | none => fd0
  | some idx0 =>
    let fd1 := { fd0 with info := charsToString (info.take idx0) }
    let index := idx0 + 1
    if index + 3 < infoData.length then
      if infoData.length - index = 4 then
        { fd1 with baseUp := (infoData.getD index 0 : α)
                   baseDown := (infoData.getD (index + 1) 0 : α)
                   orientation :=
                     if infoData.getD (index + 2) 0 = 0 then .horizontal
                     else .vertical
                   height := (infoData.getD index 0 : α) }
      else
        { fd1 with baseUp := (infoData.getD index 0 : α)
                   orientation :=
                     if infoData.getD (index + 2) 0 = 0 then .horizontal
                     else .vertical
                   baseDown := (infoData.getD (index + 3) 0 : α)
                   isExtended := true
                   height := (infoData.getD index 0 : α) }
    else fd1

/-- The fallible body of `ShxBigfontContentParser.parse`: discard the item
length, read and validate the count, skip the change table, read the
descriptor triples and their payloads, and interpret code 0's payload. -/
def shxBigfontContentTryParse (r0 : ShxFileReader) :
    Except String (ShxFontContentData α) :=
  match r0.readInt16 with
  | .error e => .error e
  | .ok (_, r1) =>
    match r1.readInt16 with
    | .error e => .error e
    | .ok (count, r2) =>
      match r2.readInt16 with
      | .error e => .error e
      | .ok (changeNumber, r3) =>
        if count ≤ 0 then .error "Invalid character count in font file"
        else
          match r3.skip (changeNumber * 4) with
          | .error e => .error e
          | .ok r4 =>
            match readBigfontDescriptors count.toNat r4 [] with
            | .error e => .error e
            | .ok (items, r5) =>
              let di := readBigfontItems items r5 (fun _ => none)
              let fd0 : ShxFontContentData α :=
                { data := di.1, info := "", baseUp := 8, baseDown := 2
                  orientation := .horizontal, height := 8, isExtended := false }
              match di.1 0 with
              | some infoData => .ok (applyBigfontInfoBlock infoData fd0)
              | none => .ok fd0

/-- `ShxBigfontContentParser.parse`: failures fall back to the default
record. -/
def shxBigfontContentParse (r : ShxFileReader) : ShxFontContentData α :=
  match shxBigfontContentTryParse r with
  | .ok c => c
  | .error _ => fallbackContentData

/-- Glyph loop of the Unifont decoder: `count − 1` inline descriptors with
label stripping; the first read failure breaks out non-fatally, keeping the
entries collected so far. -/
def readUnifontItems : Nat → ShxFileReader → (Nat → Option (List Nat)) →
    Nat → Option (List Nat)
  | 0, _, acc => acc
  | n + 1, r, acc =>
    match r.readUint16 with
    | .error _ => acc
    | .ok (code, r1) =>
      match r1.readUint16 with
      | .error _ => acc
      | .ok (len, r2) =>
        if 0 < len then
          match r2.readBytes (len : ℤ) with
          | .error _ => acc
          | .ok (bytes, r3) =>
            let startOfBytecode := match bytes.findIdx? (· == 0) with
              | some idx => idx + 1
              | none => 0
            readUnifontItems n r3
              (if startOfBytecode < bytes.length then
                fun c =>
                  if c = code then some (bytes.drop startOfBytecode) else acc c
               else acc)
        else readUnifontItems n r2 acc

/-- The fallible body of `ShxUnifontContentParser.parse`: read and validate
the count, read the info block up front (same layout as Shapes), then the
inline glyph records. -/
def shxUnifontContentTryParse (decode : List Nat → List Nat)
    (r0 : ShxFileReader) : Except String (ShxFontContentData α) :=
  match r0.readInt32 with
  | .error e => .error e
  | .ok (count, r1) =>
    if count ≤ 0 then .error "Invalid character count in font file"
    else
      match r1.readInt16 with
      | .error e => .error e
      | .ok (infoLength, r2) =>
        match r2.readBytes infoLength with
        | .error e => .error e
        | .ok (infoData, r3) =>
          let fd0 : ShxFontContentData α :=
            { data := fun _ => none, info := "", baseUp := 8, baseDown := 2
              orientation := .horizontal, height := 8, isExtended := false }
          let fd1 := applyInfoBlock decode infoData fd0
          .ok { fd1 with data := readUnifontItems (count - 1).toNat r3 (fun _ => none) }

/-- `ShxUnifontContentParser.parse`: failures fall back to the default
record. -/
def shxUnifontContentParse (decode : List Nat → List Nat)
    (r : ShxFileReader) : ShxFontContentData α :=
  match shxUnifontContentTryParse decode r with
  | .ok c => c
  | .error _ => fallbackContentData

/-! ## Concrete sample font used by witnesses and counterexamples -/

/-- A small `shapes`-type font over `ℚ`: code 65 draws a vertical unit
segment (pen down, one packed vector `0x14` = length 1 direction 4, pen up,
end), code 66 is a corrupt glyph of five consecutive push-position opcodes,
and no other code is mapped. -/
def sampleFont : ShxFontData ℚ :=
  { header := ⟨.shapes, "AutoCAD-86 shapes 1.0", "1.0"⟩
    content :=
      { data := fun c =>
          if c = 65 then some [1, 0x14, 2, 0]
          else if c = 66 then some [5, 5, 5, 5, 5] else none
        info := "", orientation := .horizontal, baseUp := 6, baseDown := 2
        height := 6, isExtended := false } }

/-- A sub-glyph resolver that is never consulted, for running handlers in
isolation. -/
def unusedSubParser : SubParser ℚ := fun _ c => (c, .error "unused")

/-! ## Interpreter loop stepping lemmas -/

/-- One push-position step of the main loop: with fewer than four saved
positions, the push succeeds and the loop continues past the opcode. -/
theorem runLoop_push_step (F : RealFns α) (fd : ShxFontData α)
    (subParse : SubParser α) (n : Nat) (data : List Nat) (i : Nat)
    (st : PState α) (c : Caches α) (hb : getByte data i = 5)
    (hi : i < data.length) (hlen : st.sp.length ≠ 4) :
    runLoop F fd subParse (n + 1) data i st c =
      runLoop F fd subParse n data (i + 1)
        { st with sp := st.sp ++ [st.currentPoint] } c := by
  simp [runLoop, hi, hb, handleSpecialCommand, hlen]

/-- A push-position opcode reached with a full stack stops the loop with the
overflow error. -/
theorem runLoop_push_overflow (F : RealFns α) (fd : ShxFontData α)
    (subParse : SubParser α) (n : Nat) (data : List Nat) (i : Nat)
    (st : PState α) (c : Caches α) (hb : getByte data i = 5)
    (hi : i < data.length) (hlen : st.sp.length = 4) :
    runLoop F fd subParse (n + 1) data i st c =
      (c, .error "The position stack is only four locations deep") := by
  simp [runLoop, hi, hb, handleSpecialCommand, hlen]

/-! ## Claim theorems: the interpreter -/

/-- C9: when the pen-up opcode (2) executes, the current polyline is
committed to the polyline list if and only if it holds at least 2 points
(a shorter one is discarded), and in either case the current polyline is
reset to empty and the pen-down flag is cleared. -/
theorem penUp_commits_iff_at_least_two_points (F : RealFns α)
    (fd : ShxFontData α) (subParse : SubParser α) (data : List Nat) (i : Nat)
    (st : PState α) (caches : Caches α) :
    handleSpecialCommand F fd subParse 2 data i st caches =
      (caches, .ok (i,
        { st with isPenDown := false
                  polylines :=
                    if 2 ≤ st.currentPolyline.length then
                      st.polylines ++ [st.currentPolyline]
                    else st.polylines
                  currentPolyline := [] })) := rfl

/-- C10: executing the pop-position opcode (6) on an empty position stack is
not an error: the handler succeeds and leaves the whole interpreter state
(in particular the current pen position) and the caches unchanged. -/
theorem popEmptyStack_is_noop (F : RealFns α) (fd : ShxFontData α)
    (subParse : SubParser α) (data : List Nat) (i : Nat) (st : PState α)
    (caches : Caches α) (h : st.sp = []) :
    handleSpecialCommand F fd subParse 6 data i st caches =
      (caches, .ok (i, st)) := by
  simp [handleSpecialCommand, h]

/-- Witness for C10: popping in the initial state (empty stack) of the
sample font leaves everything unchanged. -/
theorem popEmptyStack_is_noop_witness :
    (initPState : PState ℚ).sp = [] ∧
    handleSpecialCommand ratFns sampleFont unusedSubParser 6 [] 0
        (initPState : PState ℚ) Caches.empty =
      (Caches.empty, .ok (0, initPState)) :=
  ⟨rfl, popEmptyStack_is_noop ratFns sampleFont unusedSubParser [] 0
    initPState Caches.empty rfl⟩

/-- C2: the position stack holds at most 4 saved positions.  First, a
push-position opcode (5) executed with 4 saved positions raises the fatal
overflow error.  Second, a glyph whose bytecode issues 5 consecutive
push-position opcodes makes `getCharShape` propagate that error while the
caches — hence the cached shapes of every other character code — are left
exactly as they were. -/
theorem pushOverflow_fatal_and_cache_preserving :
    (∀ (F : RealFns α) (fd : ShxFontData α) (subParse : SubParser α)
       (data : List Nat) (i : Nat) (st : PState α) (caches : Caches α),
       st.sp.length = 4 →
       handleSpecialCommand F fd subParse 5 data i st caches =
         (caches, .error "The position stack is only four locations deep")) ∧
    (∀ (F : RealFns α) (fd : ShxFontData α) (rfuel code : Nat)
       (rest : List Nat) (size : α) (caches : Caches α),
       fd.content.data code = some ([5, 5, 5, 5, 5] ++ rest) →
       caches.shapeCache code = none → code ≠ 0 →
       getCharShape F fd (rfuel + 1) code size caches =
         (caches, .error "The position stack is only four locations deep")) := by
  constructor
  · intro F fd subParse data i st caches h
    simp [handleSpecialCommand, h]
  · intro F fd rfuel code rest size caches hdata hcache hcode
    have hrun : runLoop F fd (parseShape F fd rfuel) (rest.length + 5)
        (5 :: 5 :: 5 :: 5 :: 5 :: rest) 0 (initPState : PState α) caches =
        (caches, .error "The position stack is only four locations deep") := by
      have hl : (5 :: 5 :: 5 :: 5 :: 5 :: rest : List Nat).length =
          rest.length + 5 := by simp
      calc
        runLoop F fd (parseShape F fd rfuel) (rest.length + 5)
            (5 :: 5 :: 5 :: 5 :: 5 :: rest) 0 initPState caches =
            runLoop F fd (parseShape F fd rfuel) (rest.length + 4)
              (5 :: 5 :: 5 :: 5 :: 5 :: rest) 1
              { (initPState : PState α) with sp := [⟨0, 0⟩] } caches := by
          refine runLoop_push_step _ _ _ _ _ _ _ _ rfl ?_ ?_ <;> simp [initPState]
        _ = runLoop F fd (parseShape F fd rfuel) (rest.length + 3)
              (5 :: 5 :: 5 :: 5 :: 5 :: rest) 2
              { (initPState : PState α) with sp := [⟨0, 0⟩, ⟨0, 0⟩] } caches := by
          refine runLoop_push_step _ _ _ _ _ _ _ _ rfl ?_ ?_ <;> simp
        _ = runLoop F fd (parseShape F fd rfuel) (rest.length + 2)
              (5 :: 5 :: 5 :: 5 :: 5 :: rest) 3
              { (initPState : PState α) with sp := [⟨0, 0⟩, ⟨0, 0⟩, ⟨0, 0⟩] }
              caches := by
          refine runLoop_push_step _ _ _ _ _ _ _ _ rfl ?_ ?_ <;> simp
        _ = runLoop F fd (parseShape F fd rfuel) (rest.length + 1)
              (5 :: 5 :: 5 :: 5 :: 5 :: rest) 4
              { (initPState : PState α) with
                  sp := [⟨0, 0⟩, ⟨0, 0⟩, ⟨0, 0⟩, ⟨0, 0⟩] } caches := by
          refine runLoop_push_step _ _ _ _ _ _ _ _ rfl ?_ ?_ <;> simp
        _ = (caches, .error "The position stack is only four locations deep") := by
          refine runLoop_push_overflow _ _ _ _ _ _ _ _ rfl ?_ ?_ <;> simp
    have hparse : parseShape F fd (rfuel + 1) (5 :: 5 :: 5 :: 5 :: 5 :: rest)
        caches =
        (caches, .error "The position stack is only four locations deep") := by
      simp only [parseShape]
      have hlen : (5 :: 5 :: 5 :: 5 :: 5 :: rest : List Nat).length =
          rest.length + 5 := by simp
      rw [hlen, hrun]
    simp [getCharShape, parseAndScale, unscaledGlyph, hcode, hcache, hdata,
      hparse]

/-- Witness for C2: the corrupt glyph 66 of the sample font.  Part one at a
concrete full stack, part two at the sample font with empty caches. -/
theorem pushOverflow_witness :
    ({ initPState with sp := [⟨0, 0⟩, ⟨0, 0⟩, ⟨0, 0⟩, ⟨0, 0⟩] } :
        PState ℚ).sp.length = 4 ∧
    handleSpecialCommand ratFns sampleFont unusedSubParser 5 [] 0
        ({ initPState with sp := [⟨0, 0⟩, ⟨0, 0⟩, ⟨0, 0⟩, ⟨0, 0⟩] } : PState ℚ)
        Caches.empty =
      (Caches.empty, .error "The position stack is only four locations deep") ∧
    sampleFont.content.data 66 = some ([5, 5, 5, 5, 5] ++ []) ∧
    getCharShape ratFns sampleFont (0 + 1) 66 (12 : ℚ) Caches.empty =
      (Caches.empty, .error "The position stack is only four locations deep") := by
  refine ⟨rfl, ?_, by decide, ?_⟩
  · exact pushOverflow_fatal_and_cache_preserving.1 ratFns sampleFont
      unusedSubParser [] 0 _ Caches.empty rfl
  · exact pushOverflow_fatal_and_cache_preserving.2 ratFns sampleFont 0 66 []
      12 Caches.empty (by decide) rfl (by decide)

/-- Base-shape resolution is stable: once `unscaledGlyph` has answered
successfully, asking again from the caches it produced returns the same
answer and leaves the caches unchanged, whatever recursion budget the second
call gets. -/
theorem unscaledGlyph_stable (F : RealFns α) (fd : ShxFontData α)
    (n m code : Nat) (c0 c1 : Caches α) (ob : Option (ShxShape α))
    (h : unscaledGlyph F fd n code c0 = (c1, .ok ob)) :
    unscaledGlyph F fd m code c1 = (c1, .ok ob) := by
  have hzero : ∀ (k : Nat) (c : Caches α), unscaledGlyph F fd k 0 c =
      (c, .ok none) := by
    intro k c
    simp [unscaledGlyph]
  by_cases h0 : code = 0
  · subst h0
    rw [hzero] at h
    rw [Prod.mk.injEq] at h
    obtain ⟨hc, h2⟩ := h
    injection h2 with h3
    rw [← hc, ← h3, hzero]
  · simp only [unscaledGlyph, if_neg h0] at h ⊢
    cases hsc : c0.shapeCache code with
    | some s =>
      simp only [hsc] at h
      rw [Prod.mk.injEq] at h
      obtain ⟨hc, h2⟩ := h
      injection h2 with h3
      rw [← hc]
      simp only [hsc, ← h3]
    | none =>
      simp only [hsc] at h
      cases hd : fd.content.data code with
      | none =>
        simp only [hd] at h
        rw [Prod.mk.injEq] at h
        obtain ⟨hc, h2⟩ := h
        injection h2 with h3
        rw [← hc]
        simp only [hsc, hd, ← h3]
      | some d =>
        simp only [hd] at h
        rcases hp : parseShape F fd n d c0 with ⟨cp, res2⟩
        simp only [hp] at h
        cases res2 with
        | error e =>
          rw [Prod.mk.injEq] at h
          exact absurd h.2 (by simp)
        | ok s =>
          rw [Prod.mk.injEq] at h
          obtain ⟨hc1, h2⟩ := h
          injection h2 with h3
          have hcc : c1.shapeCache code = some s := by
            rw [← hc1]
            simp [cacheInsert]
          simp only [hcc, ← h3]

/-- C1 (amended): `getCharShape(0, size)` returns no shape; a code absent
from the code-to-bytecode mapping returns no shape (for caches that only
hold codes present in the mapping, which is all the parser ever caches); and
a code other than 0 whose base shape resolves successfully yields that shape
scaled by the uniform factor `size / content.height`.  As stated the claim
is falsified by glyphs whose interpretation throws, see the
counterexample. -/
theorem getCharShape_lookup_cases :
    (∀ (F : RealFns α) (fd : ShxFontData α) (rfuel : Nat) (size : α)
       (caches : Caches α),
       getCharShape F fd rfuel 0 size caches = (caches, .ok none)) ∧
    (∀ (F : RealFns α) (fd : ShxFontData α) (rfuel code : Nat) (size : α)
       (caches : Caches α),
       (∀ k, (caches.shapeCache k).isSome → (fd.content.data k).isSome) →
       fd.content.data code = none →
       getCharShape F fd rfuel code size caches = (caches, .ok none)) ∧
    (∀ (F : RealFns α) (fd : ShxFontData α) (rfuel code : Nat) (size : α)
       (caches c2 : Caches α) (base : ShxShape α),
       unscaledGlyph F fd rfuel code caches = (c2, .ok (some base)) →
       getCharShape F fd rfuel code size caches =
         (c2, .ok (some (scaleShapeByFactor base (size / fd.content.height))))) := by
  refine ⟨?_, ?_, ?_⟩
  · intro F fd rfuel size caches
    simp [getCharShape, parseAndScale, unscaledGlyph]
  · intro F fd rfuel code size caches hwf hd
    have hsc : caches.shapeCache code = none := by
      cases hs : caches.shapeCache code with
      | none => rfl
      | some s =>
        have := hwf code (by rw [hs]; rfl)
        rw [hd] at this
        exact absurd this (by simp)
    by_cases h0 : code = 0
    · subst h0; simp [getCharShape, parseAndScale, unscaledGlyph]
    · simp [getCharShape, parseAndScale, unscaledGlyph, h0, hsc, hd]
  · intro F fd rfuel code size caches c2 base h
    simp [getCharShape, parseAndScale, h]

/-- Counterexample to C1 as stated: code 66 is present in the sample font's
mapping and differs from 0, yet `getCharShape` does not return a shape —
interpretation of its bytecode (five consecutive pushes) throws, and the
error propagates to the caller. -/
theorem getCharShape_lookup_cases_counterexample :
    sampleFont.content.data 66 = some [5, 5, 5, 5, 5] ∧
    (getCharShape ratFns sampleFont 1 66 (12 : ℚ) Caches.empty).2 =
      .error "The position stack is only four locations deep" := by
  constructor
  · decide
  · simp [getCharShape, parseAndScale, unscaledGlyph, parseShape, runLoop,
      handleSpecialCommand, getByte, sampleFont, Caches.empty, initPState]

/-- Witness for C1: the three amended cases at the sample font (code 0,
the unmapped code 7, and the well-formed code 65). -/
theorem getCharShape_lookup_cases_witness :
    getCharShape ratFns sampleFont 1 0 (12 : ℚ) Caches.empty =
      (Caches.empty, .ok none) ∧
    getCharShape ratFns sampleFont 1 7 (12 : ℚ) Caches.empty =
      (Caches.empty, .ok none) ∧
    getCharShape ratFns sampleFont 1 65 (12 : ℚ) Caches.empty =
      ((unscaledGlyph ratFns sampleFont 1 65 Caches.empty).1,
       .ok (some (scaleShapeByFactor ⟨some ⟨0, 1⟩, [[⟨0, 0⟩, ⟨0, 1⟩]]⟩
         ((12 : ℚ) / sampleFont.content.height)))) := by
  have h2 : (unscaledGlyph ratFns sampleFont 1 65 Caches.empty).2 =
      .ok (some ⟨some ⟨0, 1⟩, [[⟨0, 0⟩, ⟨0, 1⟩]]⟩) := by
    have h20a : (20 &&& 240) >>> 4 = 1 := by decide
    have h20b : 20 &&& 15 = 4 := by decide
    simp [unscaledGlyph, parseShape, runLoop, handleSpecialCommand,
      handleVectorCommand, getByte, sampleFont, Caches.empty, initPState,
      h20a, h20b, getVectorForDirection, Pt.add, Pt.mul]
  have h : unscaledGlyph ratFns sampleFont 1 65 Caches.empty =
      ((unscaledGlyph ratFns sampleFont 1 65 Caches.empty).1,
       .ok (some ⟨some ⟨0, 1⟩, [[⟨0, 0⟩, ⟨0, 1⟩]]⟩)) := by
    rw [← h2]
  refine ⟨?_, ?_, ?_⟩
  · exact getCharShape_lookup_cases.1 ratFns sampleFont 1 12 Caches.empty
  · exact getCharShape_lookup_cases.2.1 ratFns sampleFont 1 7 12 Caches.empty
      (by intro k hk; simp [Caches.empty] at hk) (by decide)
  · exact getCharShape_lookup_cases.2.2 ratFns sampleFont 1 65 12 Caches.empty
      _ _ h

/-- C3: `getCharShape(code, size)` equals the base-shape resolution followed
by a uniform scaling that multiplies every coordinate of a copy of the
unscaled glyph's polylines and of its last pen position by
`size / baseUp`.  The hypothesis is the spec-modelled identification of the
reference unit `content.height` with the `baseUp` metric (the decoder
setting `height` is not among the sources). -/
theorem getCharShape_is_scaled_deep_copy (F : RealFns α) (fd : ShxFontData α)
    (rfuel code : Nat) (size : α) (caches : Caches α)
    (h : RefUnitIsBaseUp fd.content) :
    getCharShape F fd rfuel code size caches =
      ((unscaledGlyph F fd rfuel code caches).1,
       (unscaledGlyph F fd rfuel code caches).2.map (fun ob => ob.map
         (fun base =>
           ⟨base.lastPoint.map (fun p => p.mul (size / fd.content.baseUp)),
            base.polylines.map
              (fun l => l.map (fun p => p.mul (size / fd.content.baseUp)))⟩))) := by
  have hh : fd.content.height = fd.content.baseUp := h
  rcases hug : unscaledGlyph F fd rfuel code caches with ⟨cu, res⟩
  cases res with
  | error e => simp [getCharShape, parseAndScale, hug, Except.map]
  | ok ob =>
    cases ob with
    | none => simp [getCharShape, parseAndScale, hug, Except.map]
    | some base =>
      simp [getCharShape, parseAndScale, hug, Except.map, scaleShapeByFactor,
        hh]

/-- Witness for C3: the sample font satisfies the spec-modelled reference
unit identification, and the theorem applies at code 65. -/
theorem getCharShape_is_scaled_deep_copy_witness :
    RefUnitIsBaseUp sampleFont.content ∧
    getCharShape ratFns sampleFont 1 65 (12 : ℚ) Caches.empty =
      ((unscaledGlyph ratFns sampleFont 1 65 Caches.empty).1,
       (unscaledGlyph ratFns sampleFont 1 65 Caches.empty).2.map (fun ob =>
         ob.map (fun base =>
           ⟨base.lastPoint.map (fun p => p.mul ((12 : ℚ) / sampleFont.content.baseUp)),
            base.polylines.map (fun l => l.map
              (fun p => p.mul ((12 : ℚ) / sampleFont.content.baseUp)))⟩))) :=
  ⟨rfl, getCharShape_is_scaled_deep_copy ratFns sampleFont 1 65 12
    Caches.empty rfl⟩

/-- C4: a repeated `getCharShape` call with identical arguments returns the
bit-identical result, and once the first call has succeeded the glyph is
never re-interpreted — a later call at any requested size (and any recursion
budget) leaves the caches untouched. -/
theorem getCharShape_idempotent_and_cached (F : RealFns α)
    (fd : ShxFontData α) (n m code : Nat) (size size2 : α) (c0 c1 : Caches α)
    (r : Option (ShxShape α))
    (h : getCharShape F fd n code size c0 = (c1, .ok r)) :
    getCharShape F fd m code size c1 = (c1, .ok r) ∧
    (getCharShape F fd m code size2 c1).1 = c1 := by
  rcases hug : unscaledGlyph F fd n code c0 with ⟨cu, res⟩
  simp only [getCharShape, parseAndScale, hug] at h
  cases res with
  | error e => rw [Prod.mk.injEq] at h; exact absurd h.2 (by simp)
  | ok ob =>
    cases ob with
    | none =>
      rw [Prod.mk.injEq] at h
      obtain ⟨hc, h2⟩ := h
      injection h2 with h3
      have hs := unscaledGlyph_stable F fd n m code c0 cu none hug
      rw [← hc]
      constructor
      · simp only [getCharShape, parseAndScale, hs, ← h3]
      · simp only [getCharShape, parseAndScale, hs]
    | some base =>
      rw [Prod.mk.injEq] at h
      obtain ⟨hc, h2⟩ := h
      injection h2 with h3
      have hs := unscaledGlyph_stable F fd n m code c0 cu (some base) hug
      rw [← hc]
      constructor
      · simp only [getCharShape, parseAndScale, hs, ← h3]
      · simp only [getCharShape, parseAndScale, hs]

/-- Witness for C4: code 65 of the sample font, first call from empty
caches. -/
theorem getCharShape_idempotent_and_cached_witness :
    getCharShape ratFns sampleFont 1 65 (12 : ℚ)
        ((getCharShape ratFns sampleFont 1 65 (12 : ℚ) Caches.empty).1) =
      ((getCharShape ratFns sampleFont 1 65 (12 : ℚ) Caches.empty).1,
       .ok (some ⟨some ⟨0, 2⟩, [[⟨0, 0⟩, ⟨0, 2⟩]]⟩)) ∧
    (getCharShape ratFns sampleFont 1 65 (7 : ℚ)
        ((getCharShape ratFns sampleFont 1 65 (12 : ℚ) Caches.empty).1)).1 =
      (getCharShape ratFns sampleFont 1 65 (12 : ℚ) Caches.empty).1 := by
  have h2 : (getCharShape ratFns sampleFont 1 65 (12 : ℚ) Caches.empty).2 =
      .ok (some ⟨some ⟨0, 2⟩, [[⟨0, 0⟩, ⟨0, 2⟩]]⟩) := by
    have h20a : (20 &&& 240) >>> 4 = 1 := by decide
    have h20b : 20 &&& 15 = 4 := by decide
    simp [getCharShape, parseAndScale, unscaledGlyph, parseShape, runLoop,
      handleSpecialCommand, handleVectorCommand, getByte, sampleFont,
      Caches.empty, initPState, h20a, h20b, getVectorForDirection, Pt.add,
      Pt.mul, scaleShapeByFactor]
    norm_num
  have h : getCharShape ratFns sampleFont 1 65 (12 : ℚ) Caches.empty =
      ((getCharShape ratFns sampleFont 1 65 (12 : ℚ) Caches.empty).1,
       .ok (some ⟨some ⟨0, 2⟩, [[⟨0, 0⟩, ⟨0, 2⟩]]⟩)) := by
    rw [← h2]
  exact getCharShape_idempotent_and_cached ratFns sampleFont 1 1 65 12 7
    Caches.empty _ _ h

/-- C5: doubling the requested size doubles every polyline coordinate:
whenever both calls return a shape from the same starting caches, the
polylines at size `2·size` are the polylines at `size` with every coordinate
multiplied by 2 (exactly, in the idealised real arithmetic). -/
theorem getCharShape_scale_linearity (F : RealFns α) (fd : ShxFontData α)
    (n code : Nat) (size : α) (c0 : Caches α) (s s2 : ShxShape α)
    (h1 : (getCharShape F fd n code size c0).2 = .ok (some s))
    (h2 : (getCharShape F fd n code (2 * size) c0).2 = .ok (some s2)) :
    s2.polylines = s.polylines.map (fun l => l.map (fun p => p.mul 2)) := by
  rcases hug : unscaledGlyph F fd n code c0 with ⟨cu, res⟩
  simp only [getCharShape, parseAndScale, hug] at h1 h2
  cases res with
  | error e => exact absurd h1 (by simp)
  | ok ob =>
    cases ob with
    | none => exact absurd h1 (by simp)
    | some base =>
      simp only [] at h1 h2
      injection h1 with h1a
      injection h2 with h2a
      injection h1a with h1b
      injection h2a with h2b
      rw [← h1b, ← h2b]
      simp only [scaleShapeByFactor, List.map_map]
      refine congrArg (fun f => List.map f base.polylines) ?_
      funext l
      simp only [Function.comp, List.map_map]
      refine congrArg (fun f => List.map f l) ?_
      funext p
      simp only [Function.comp, Pt.mul, Pt.mk.injEq]
      constructor <;> ring

/-- Witness for C5: code 65 of the sample font at sizes 12 and 24. -/
theorem getCharShape_scale_linearity_witness :
    (getCharShape ratFns sampleFont 1 65 (12 : ℚ) Caches.empty).2 =
      .ok (some ⟨some ⟨0, 2⟩, [[⟨0, 0⟩, ⟨0, 2⟩]]⟩) ∧
    (getCharShape ratFns sampleFont 1 65 (2 * 12 : ℚ) Caches.empty).2 =
      .ok (some ⟨some ⟨0, 4⟩, [[⟨0, 0⟩, ⟨0, 4⟩]]⟩) ∧
    (⟨some ⟨0, 4⟩, [[⟨0, 0⟩, ⟨0, 4⟩]]⟩ : ShxShape ℚ).polylines =
      (⟨some ⟨0, 2⟩, [[⟨0, 0⟩, ⟨0, 2⟩]]⟩ : ShxShape ℚ).polylines.map
        (fun l => l.map (fun p => p.mul 2)) := by
  have h20a : (20 &&& 240) >>> 4 = 1 := by decide
  have h20b : 20 &&& 15 = 4 := by decide
  have h1 : (getCharShape ratFns sampleFont 1 65 (12 : ℚ) Caches.empty).2 =
      .ok (some ⟨some ⟨0, 2⟩, [[⟨0, 0⟩, ⟨0, 2⟩]]⟩) := by
    simp [getCharShape, parseAndScale, unscaledGlyph, parseShape, runLoop,
      handleSpecialCommand, handleVectorCommand, getByte, sampleFont,
      Caches.empty, initPState, h20a, h20b, getVectorForDirection, Pt.add,
      Pt.mul, scaleShapeByFactor]
    norm_num
  have h2 : (getCharShape ratFns sampleFont 1 65 (2 * 12 : ℚ) Caches.empty).2 =
      .ok (some ⟨some ⟨0, 4⟩, [[⟨0, 0⟩, ⟨0, 4⟩]]⟩) := by
    simp [getCharShape, parseAndScale, unscaledGlyph, parseShape, runLoop,
      handleSpecialCommand, handleVectorCommand, getByte, sampleFont,
      Caches.empty, initPState, h20a, h20b, getVectorForDirection, Pt.add,
      Pt.mul, scaleShapeByFactor]
    norm_num
  exact ⟨h1, h2,
    getCharShape_scale_linearity ratFns sampleFont 1 65 12 Caches.empty _ _
      h1 h2⟩

/-! ## Claim theorems: the content decoders -/

/-- C6: if decoding the content section of any of the three sub-types raises
an exception, the parser still returns a record (construction is not
aborted) — namely the fallback record, whose glyph mapping is empty, whose
info string flags the failure, and whose metrics are `baseUp = 8`,
`baseDown = 2` with horizontal orientation. -/
theorem contentDecodeFailure_returns_defaults :
    (∀ (decode : List Nat → List Nat) (r : ShxFileReader) (e : String),
       (shxShapeContentTryParse decode r : Except String (ShxFontContentData α)) =
         .error e →
       shxShapeContentParse decode r = (fallbackContentData : ShxFontContentData α)) ∧
    (∀ (r : ShxFileReader) (e : String),
       (shxBigfontContentTryParse r : Except String (ShxFontContentData α)) =
         .error e →
       shxBigfontContentParse r = (fallbackContentData : ShxFontContentData α)) ∧
    (∀ (decode : List Nat → List Nat) (r : ShxFileReader) (e : String),
       (shxUnifontContentTryParse decode r : Except String (ShxFontContentData α)) =
         .error e →
       shxUnifontContentParse decode r = (fallbackContentData : ShxFontContentData α)) ∧
    (fallbackContentData : ShxFontContentData α).data = (fun _ => none) ∧
    (fallbackContentData : ShxFontContentData α).info = "Failed to parse font file" ∧
    (fallbackContentData : ShxFontContentData α).baseUp = 8 ∧
    (fallbackContentData : ShxFontContentData α).baseDown = 2 ∧
    (fallbackContentData : ShxFontContentData α).orientation = .horizontal := by
  refine ⟨?_, ?_, ?_, rfl, rfl, rfl, rfl, rfl⟩
  · intro decode r e h
    simp [shxShapeContentParse, h]
  · intro r e h
    simp [shxBigfontContentParse, h]
  · intro decode r e h
    simp [shxUnifontContentParse, h]

/-- Witness for C6: the empty buffer makes all three decoder bodies throw on
their first read, and each public parse then returns the fallback record. -/
theorem contentDecodeFailure_returns_defaults_witness :
    (shxShapeContentTryParse (fun l => l) ⟨[], 0⟩ :
        Except String (ShxFontContentData ℚ)) = .error (outOfRange 4 0) ∧
    shxShapeContentParse (fun l => l) ⟨[], 0⟩ =
      (fallbackContentData : ShxFontContentData ℚ) ∧
    (shxBigfontContentTryParse ⟨[], 0⟩ :
        Except String (ShxFontContentData ℚ)) = .error (outOfRange 2 0) ∧
    shxBigfontContentParse ⟨[], 0⟩ =
      (fallbackContentData : ShxFontContentData ℚ) ∧
    (shxUnifontContentTryParse (fun l => l) ⟨[], 0⟩ :
        Except String (ShxFontContentData ℚ)) = .error (outOfRange 4 0) ∧
    shxUnifontContentParse (fun l => l) ⟨[], 0⟩ =
      (fallbackContentData : ShxFontContentData ℚ) := by
  refine ⟨rfl, ?_, rfl, ?_, rfl, ?_⟩
  · exact contentDecodeFailure_returns_defaults.1 (fun l => l) ⟨[], 0⟩
      (outOfRange 4 0) rfl
  · exact contentDecodeFailure_returns_defaults.2.1 ⟨[], 0⟩
      (outOfRange 2 0) rfl
  · exact contentDecodeFailure_returns_defaults.2.2.1 (fun l => l) ⟨[], 0⟩
      (outOfRange 4 0) rfl

/-! ## Claim theorems: arc geometry -/

/-- The clamp of `Arc.fromBulge` is idempotent. -/
theorem clampBulge_idem (b : α) : clampBulge (clampBulge b) = clampBulge b := by
  have h1 : (-1 : α) ≤ clampBulge b := le_max_left _ _
  have h2 : clampBulge b ≤ 1 := max_le (by norm_num) (min_le_left _ _)
  rw [clampBulge, min_eq_right h2, max_eq_right h1]

/-- Projection of the real function table. -/
theorem realFns_cos : realFns.cos = Real.cos := rfl

/-- Projection of the real function table. -/
theorem realFns_sin : realFns.sin = Real.sin := rfl

/-- Projection of the real function table. -/
theorem realFns_arctan : realFns.arctan = Real.arctan := rfl

/-- Projection of the real function table. -/
theorem realFns_pi : realFns.pi = Real.pi := rfl

/-- A point with vanishing Euclidean norm is the origin. -/
theorem Pt.len_eq_zero {p : Pt ℝ} (h : p.len realFns = 0) : p = ⟨0, 0⟩ := by
  obtain ⟨x, y⟩ := p
  simp only [Pt.len, realFns] at h
  have h2 : x * x + y * y ≤ 0 := Real.sqrt_eq_zero'.mp h
  have hx : x = 0 := by nlinarith [mul_self_nonneg x, mul_self_nonneg y]
  have hy : y = 0 := by nlinarith [mul_self_nonneg x, mul_self_nonneg y]
  simp [hx, hy]

/-- Shared computation for `bulge = ±1`: the constructed arc's radius is half
the chord length and its center is the chord midpoint (which is what makes
it a semicircle on the chord). -/
theorem fromBulge_unit_radius_center (s e : Pt ℝ) (b : ℝ) (hb : |b| = 1)
    (hcl : clampBulge b = b) :
    (Arc.fromBulge realFns s e b).radius = (e.sub s).len realFns / 2 ∧
    (Arc.fromBulge realFns s e b).center = s.add ((e.sub s).div 2) := by
  by_cases hD : (e.sub s).len realFns = 0
  · have hsub := Pt.len_eq_zero hD
    have hH : |b| * (e.sub s).len realFns / 2 = 0 := by rw [hD]; ring
    constructor
    · simp only [Arc.fromBulge, hcl, hH, if_pos]
      rw [hD]
      norm_num
    · simp only [Arc.fromBulge, hcl, hH, if_pos]
      rw [hsub]
      obtain ⟨sx, sy⟩ := s
      simp [Pt.div, Pt.add]
  · have hH : ¬(|b| * (e.sub s).len realFns / 2 = 0) := by
      rw [hb, one_mul]
      exact div_ne_zero hD two_ne_zero
    have htheta : 4 * Real.arctan |b| / 2 = Real.pi / 2 := by
      rw [hb, Real.arctan_one]; ring
    have hsin : Real.sin (4 * Real.arctan |b| / 2) = 1 := by
      rw [htheta, Real.sin_pi_div_two]
    have hcos : Real.cos (4 * Real.arctan |b| / 2) = 0 := by
      rw [htheta, Real.cos_pi_div_two]
    constructor
    · simp only [Arc.fromBulge, hcl, if_neg hH, realFns_sin, realFns_arctan]
      rw [hsin]
      norm_num
    · simp only [Arc.fromBulge, hcl, if_neg hH, realFns_cos, realFns_arctan]
      rw [hcos]
      simp [Pt.mul, Pt.add, Pt.sub, ite_self]

/-- C7: a bulge of 0 tessellates to exactly the two endpoints; a bulge of
`+1` or `-1` yields a semicircle — radius equal to half the chord length and
center at the chord midpoint — whose rotation direction follows the sign;
and any bulge is clamped into `[-1, 1]` before the geometry is derived. -/
theorem bulge_boundary_cases :
    (∀ (s e : Pt ℝ) (span : ℝ),
       (Arc.fromBulge realFns s e 0).tessellate realFns span = [s, e]) ∧
    (∀ s e : Pt ℝ,
       (Arc.fromBulge realFns s e 1).radius = (e.sub s).len realFns / 2 ∧
       (Arc.fromBulge realFns s e 1).center = s.add ((e.sub s).div 2) ∧
       (Arc.fromBulge realFns s e 1).isClockwise = false) ∧
    (∀ s e : Pt ℝ,
       (Arc.fromBulge realFns s e (-1)).radius = (e.sub s).len realFns / 2 ∧
       (Arc.fromBulge realFns s e (-1)).center = s.add ((e.sub s).div 2) ∧
       (Arc.fromBulge realFns s e (-1)).isClockwise = true) ∧
    (∀ (s e : Pt ℝ) (b : ℝ),
       Arc.fromBulge realFns s e b = Arc.fromBulge realFns s e (clampBulge b)) := by
  have hcl1 : clampBulge (1 : ℝ) = 1 := by norm_num [clampBulge]
  have hclm1 : clampBulge (-1 : ℝ) = -1 := by norm_num [clampBulge]
  refine ⟨?_, ?_, ?_, ?_⟩
  · intro s e span
    have hcl0 : clampBulge (0 : ℝ) = 0 := by norm_num [clampBulge]
    have hH : |(0 : ℝ)| * (e.sub s).len realFns / 2 = 0 := by
      rw [abs_zero]; ring
    simp only [Arc.fromBulge, hcl0, hH, if_pos]
    simp [Arc.tessellate]
  · intro s e
    obtain ⟨hr, hc⟩ := fromBulge_unit_radius_center s e 1 (by norm_num) hcl1
    refine ⟨hr, hc, ?_⟩
    simp only [Arc.fromBulge, hcl1, apply_ite Arc.isClockwise]
    simp only [ite_self]
    exact decide_eq_false (by norm_num)
  · intro s e
    obtain ⟨hr, hc⟩ := fromBulge_unit_radius_center s e (-1) (by norm_num) hclm1
    refine ⟨hr, hc, ?_⟩
    simp only [Arc.fromBulge, hclm1, apply_ite Arc.isClockwise]
    simp only [ite_self]
    exact decide_eq_true (by norm_num)
  · intro s e b
    simp only [Arc.fromBulge, clampBulge_idem]

/-- C8: an octant arc with octant count 0 spans all eight octants — the
angular span is exactly `2π` — and, for a non-degenerate radius, its
tessellation starts and ends at the same point (the arc's start point),
exactly in the idealised real arithmetic. -/
theorem octant_count_zero_full_circle (c : Pt ℝ) (r : ℝ) (s0 : Nat)
    (cw : Bool) (hr : r ≠ 0) :
    |(Arc.fromOctant realFns c r s0 0 cw).endAngle -
        (Arc.fromOctant realFns c r s0 0 cw).startAngle| = 2 * Real.pi ∧
    ((Arc.fromOctant realFns c r s0 0 cw).tessellate realFns
        (Real.pi / 18)).head? = some (Arc.fromOctant realFns c r s0 0 cw).start ∧
    ((Arc.fromOctant realFns c r s0 0 cw).tessellate realFns
        (Real.pi / 18)).getLast? = some (Arc.fromOctant realFns c r s0 0 cw).start := by
  have h8 : (8 : ℝ) * (Real.pi / 4) = 2 * Real.pi := by ring
  refine ⟨?_, ?_, ?_⟩
  · simp only [Arc.fromOctant, realFns_pi]
    norm_num
    cases cw
    · rw [if_neg Bool.false_ne_true, abs_of_nonneg (by positivity)]
      ring
    · rw [if_pos rfl, abs_neg, abs_of_nonneg (by positivity)]
      ring
  · simp only [Arc.tessellate, Arc.fromOctant, if_neg hr]
    rfl
  · simp only [Arc.tessellate, Arc.fromOctant, if_neg hr]
    rw [List.getLast?_concat]
    simp only [Option.some.injEq, realFns_pi, realFns_cos, realFns_sin]
    norm_num
    simp only [h8]
    cases cw
    · rw [if_neg Bool.false_ne_true, Real.cos_add_two_pi, Real.sin_add_two_pi]
    · rw [if_pos rfl, ← sub_eq_add_neg, Real.cos_sub_two_pi,
        Real.sin_sub_two_pi]

/-- Witness for C8: the unit circle at the origin, counter-clockwise from
octant 0. -/
theorem octant_count_zero_full_circle_witness :
    (1 : ℝ) ≠ 0 ∧
    |(Arc.fromOctant realFns ⟨0, 0⟩ 1 0 0 false).endAngle -
        (Arc.fromOctant realFns ⟨0, 0⟩ 1 0 0 false).startAngle| = 2 * Real.pi ∧
    ((Arc.fromOctant realFns ⟨0, 0⟩ 1 0 0 false).tessellate realFns
        (Real.pi / 18)).getLast? =
      some (Arc.fromOctant realFns ⟨0, 0⟩ 1 0 0 false).start := by
  have h := octant_count_zero_full_circle ⟨0, 0⟩ 1 0 false one_ne_zero
  exact ⟨one_ne_zero, h.1, h.2.2⟩

end Shx
